import Mathlib

/-!
Verification of the artifact gacha/inventory engine and the stock trading
commands of the maill_street_stories repository.

The Python sources are embedded shallowly:
* `src/Artifact/artifact_data.py` — the `Artifact` record and the per-user
  artifact dictionary (an insertion-ordered map, modelled as an association
  list) with its operations.
* `src/Artifact/artifactCore.py` — `add_new_artifact_to_user`,
  `get_reinforcement_items_from_disassembly`, `draw_artifact_lottery`,
  `enhance_artifact`.
* `src/plugin.py` — the coin/holding/weight effects of
  `BuyStockCommand.execute` and `SellStockCommand.execute`.

Python `float` arithmetic is modelled over `ℚ`; wherever a claim depends on a
concrete float computation the modelling choice is noted at the definition.
The user economy ledger lives in `src/core/user_data.py`, which is not part of
the provided sources; it is modelled from the spec (see `UserEconomyState`).
-/

namespace MaillStreet

/-- Artifact entity (`src/Artifact/artifact_data.py`, class `Artifact`).
The Python constructor sets `level = 1`, `base_yield = 1`,
`yield_multiplier = 1.0`, `is_locked = False`; `sub_stats` is a list of
bonus-attribute records that no operation in scope populates or reads, so it
is omitted from the embedding. -/
structure Artifact where
  artifact_id : Nat
  name : String
  description : String := ""
  rarity : String := "普通"
  level : Nat := 1
  base_yield : Nat := 1
  yield_multiplier : ℚ := 1
  is_locked : Bool := false
  deriving Repr, DecidableEq

/-- The per-user artifact dictionary `artifact_data : Dict[int, Artifact]`,
modelled as an insertion-ordered association list (Python dicts preserve
insertion order; the eviction scan below iterates in that order). -/
abbrev ArtifactStore := List (Nat × Artifact)

/-- `artifact_data.get_artifact_by_id`: dictionary lookup, `None` if absent. -/
def get_artifact_by_id (s : ArtifactStore) (artifact_id : Nat) : Option Artifact :=
  (s.find? (fun p => p.1 = artifact_id)).map Prod.snd

/-- `artifact_data.add_new_artifact`: `artifact_data[artifact.artifact_id] = artifact`.
A Python dict assignment overwrites in place when the key exists and appends
at the end otherwise. -/
def add_new_artifact (s : ArtifactStore) (artifact : Artifact) : ArtifactStore :=
  if s.any (fun p => p.1 = artifact.artifact_id) then
    s.map (fun p => if p.1 = artifact.artifact_id then (p.1, artifact) else p)
  else
    s ++ [(artifact.artifact_id, artifact)]

/-- `artifact_data.update_artifact`: replace the stored artifact when the id is
present (returning `true`), otherwise leave the store unchanged (`false`). -/
def update_artifact (s : ArtifactStore) (artifact : Artifact) : ArtifactStore × Bool :=
  if s.any (fun p => p.1 = artifact.artifact_id) then
    (s.map (fun p => if p.1 = artifact.artifact_id then (p.1, artifact) else p), true)
  else
    (s, false)

/-- `artifact_data.delete_artifact`: `del artifact_data[artifact_id]` when the
key is present (returning `true`), otherwise no change (`false`). -/
def delete_artifact (s : ArtifactStore) (artifact_id : Nat) : ArtifactStore × Bool :=
  if s.any (fun p => p.1 = artifact_id) then
    (s.filter (fun p => p.1 ≠ artifact_id), true)
  else
    (s, false)

/-- `artifact_data.is_artifact_storage_full`: `len(artifact_data) >= 20`. -/
def is_artifact_storage_full (s : ArtifactStore) : Bool :=
  s.length ≥ 20

/-- The rarity defaulting applied by `artifact_data.load_artifact_data` when a
persisted record lacks the field: `artifact_info.get('rarity', "普通")`. -/
def load_rarity_field (stored : Option String) : String :=
  stored.getD "普通"

/-- The `rarity_to_items` table of
`artifactCore.get_reinforcement_items_from_disassembly`; the Python
`dict.get(rarity, 0)` defaults to `0` for any string outside the table. -/
def rarity_to_items (rarity : String) : Nat :=
  if rarity = "⚪普通" then 1
  else if rarity = "🌿罕见" then 5
  else if rarity = "🔶稀有" then 20
  else if rarity = "💎史诗" then 50
  else if rarity = "👑传说" then 100
  else 0

/-- `artifactCore.get_reinforcement_items_from_disassembly`. The Python extra
term is `int(base_items * 0.1 * (artifact.level - 1))` in IEEE doubles; for
every base produced by `rarity_to_items` (0, 1, 5, 20, 50, 100) the rounded
double `0.1` makes that computation equal to `⌊base·(level−1)/10⌋` at every
level below 10^15, so it is embedded as exact natural division. -/
def get_reinforcement_items_from_disassembly (artifact : Artifact) : Nat :=
  let base_items := rarity_to_items artifact.rarity
  let extra_items := base_items * (artifact.level - 1) / 10
  base_items + extra_items

lemma floor_base_mul (b k : Nat) :
    ⌊(b : ℚ) * (1 / 10) * (k : ℚ)⌋ = ((b * k / 10 : Nat) : ℤ) := by
  have h : (b : ℚ) * (1 / 10) * (k : ℚ) = ((b * k : Nat) : ℚ) / ((10 : Nat) : ℚ) := by
    push_cast
    ring
  rw [h, ← Int.natCast_floor_eq_floor (by positivity), Nat.floor_div_eq_div]

/-- C8: for every artifact with one of the five rarities and level ≥ 1, the
disassembly yield equals `base + ⌊base · 0.1 · (level − 1)⌋` with bases
Common = 1, Uncommon = 5, Rare = 20, Epic = 50, Legendary = 100. -/
theorem disassembly_yield_formula (a : Artifact) (hlvl : 1 ≤ a.level)
    (hr : a.rarity = "⚪普通" ∨ a.rarity = "🌿罕见" ∨ a.rarity = "🔶稀有" ∨
      a.rarity = "💎史诗" ∨ a.rarity = "👑传说") :
    ((get_reinforcement_items_from_disassembly a : ℤ) =
      (rarity_to_items a.rarity : ℤ) +
        ⌊(rarity_to_items a.rarity : ℚ) * (1 / 10) * ((a.level : ℚ) - 1)⌋) ∧
    rarity_to_items "⚪普通" = 1 ∧ rarity_to_items "🌿罕见" = 5 ∧
    rarity_to_items "🔶稀有" = 20 ∧ rarity_to_items "💎史诗" = 50 ∧
    rarity_to_items "👑传说" = 100 := by
  refine ⟨?_, rfl, rfl, rfl, rfl, rfl⟩
  clear hr
  have hcast : ((a.level : ℚ)) - 1 = ((a.level - 1 : Nat) : ℚ) := by
    rw [Nat.cast_sub hlvl, Nat.cast_one]
  rw [hcast, floor_base_mul]
  unfold get_reinforcement_items_from_disassembly
  push_cast
  ring

/-- C8 witness: a Rare level-6 artifact realises the formula (and its yield is
30); a Common level-1 yields 1 and a Legendary level-1 yields 100. -/
theorem disassembly_yield_formula_witness :
    (((get_reinforcement_items_from_disassembly
        { artifact_id := 1, name := "w", rarity := "🔶稀有", level := 6 } : ℤ) =
      (rarity_to_items "🔶稀有" : ℤ) +
        ⌊(rarity_to_items "🔶稀有" : ℚ) * (1 / 10) * (((6 : Nat) : ℚ) - 1)⌋) ∧
      rarity_to_items "⚪普通" = 1 ∧ rarity_to_items "🌿罕见" = 5 ∧
      rarity_to_items "🔶稀有" = 20 ∧ rarity_to_items "💎史诗" = 50 ∧
      rarity_to_items "👑传说" = 100) ∧
    get_reinforcement_items_from_disassembly
      { artifact_id := 1, name := "w", rarity := "🔶稀有", level := 6 } = 30 ∧
    get_reinforcement_items_from_disassembly
      { artifact_id := 2, name := "w", rarity := "⚪普通", level := 1 } = 1 ∧
    get_reinforcement_items_from_disassembly
      { artifact_id := 3, name := "w", rarity := "👑传说", level := 1 } = 100 :=
  ⟨disassembly_yield_formula
      { artifact_id := 1, name := "w", rarity := "🔶稀有", level := 6 }
      (by decide) (Or.inr (Or.inr (Or.inl rfl))),
    by decide, by decide, by decide⟩

/-- C10: an artifact whose rarity string is outside the five emoji-tagged
table entries disassembles to exactly 0 items at every level, and a persisted
record with a missing rarity field is loaded with the default "普通", which is
outside the table. -/
theorem unknown_rarity_zero_yield (a : Artifact)
    (hr : a.rarity ≠ "⚪普通" ∧ a.rarity ≠ "🌿罕见" ∧ a.rarity ≠ "🔶稀有" ∧
      a.rarity ≠ "💎史诗" ∧ a.rarity ≠ "👑传说") :
    get_reinforcement_items_from_disassembly a = 0 ∧
    load_rarity_field none = "普通" ∧
    rarity_to_items (load_rarity_field none) = 0 := by
  obtain ⟨h1, h2, h3, h4, h5⟩ := hr
  refine ⟨?_, rfl, by decide⟩
  unfold get_reinforcement_items_from_disassembly rarity_to_items
  simp [h1, h2, h3, h4, h5]

/-- C10 witness: a level-7 artifact carrying the un-prefixed default rarity
"普通" yields 0 items on disassembly. -/
theorem unknown_rarity_zero_yield_witness :
    get_reinforcement_items_from_disassembly
      { artifact_id := 9, name := "w", rarity := "普通", level := 7 } = 0 ∧
    load_rarity_field none = "普通" ∧
    rarity_to_items (load_rarity_field none) = 0 :=
  unknown_rarity_zero_yield
    { artifact_id := 9, name := "w", rarity := "普通", level := 7 }
    (by refine ⟨?_, ?_, ?_, ?_, ?_⟩ <;> decide)

/-- Modelled from the spec: the user economy ledger of `src/core/user_data.py`,
which is not among the provided sources. Spec §3 "UserEconomyState (external,
referenced) — at minimum exposes: coin balance (non-negative integer),
artifact-upgrade-item count, artifact-reroll-item count. The core treats this
as a mutable ledger reachable by user identifier." -/
structure UserEconomyState where
  coins : ℤ
  upgradeItems : ℤ
  rerollItems : ℤ
  deriving Repr, DecidableEq

/-- Modelled from the spec: `user_data.update_user_coins` is the ledger store's
`AdjustBalance(user, delta)` (spec §6), atomic and reflected on the next read. -/
def update_user_coins (u : UserEconomyState) (delta : ℤ) : UserEconomyState :=
  { u with coins := u.coins + delta }

/-- Modelled from the spec: `user_data.add_artifact_upgrade_items` is the
ledger store's `AdjustUpgradeItems(user, delta)` (spec §6). -/
def add_artifact_upgrade_items (u : UserEconomyState) (delta : ℤ) : UserEconomyState :=
  { u with upgradeItems := u.upgradeItems + delta }

/-- Modelled from the spec: `user_data.add_artifact_re_roll_items` is the
ledger store's `AdjustRerollItems(user, delta)` (spec §6). -/
def add_artifact_re_roll_items (u : UserEconomyState) (delta : ℤ) : UserEconomyState :=
  { u with rerollItems := u.rerollItems + delta }

/-- The running lower bound of the eviction scan in
`artifactCore.add_new_artifact_to_user`: `lowest_level` starts at
`float('inf')` (modelled as `none`) and `art.level < lowest_level` is tested
against it. The accumulator pairs `lowest_level_artifact_id` with
`lowest_level`; in the Python loop the two variables are `None`/`inf` together
and are always assigned together. -/
def below_lowest (level : Nat) : Option (Nat × Nat) → Bool
  | none => true
  | some (_, lowest) => level < lowest

/-- One iteration of the eviction scan loop:
`if not art.is_locked and art.level < lowest_level`. -/
def scan_step (acc : Option (Nat × Nat)) (p : Nat × Artifact) : Option (Nat × Nat) :=
  if !p.2.is_locked && below_lowest p.2.level acc then some (p.1, p.2.level) else acc

/-- The eviction scan of `artifactCore.add_new_artifact_to_user`: iterate over
`artifact_data.items()` in insertion order and return
`lowest_level_artifact_id`. -/
def scan_lowest_unlocked (s : ArtifactStore) : Option Nat :=
  (s.foldl scan_step none).map Prod.fst

/-- `artifactCore.add_new_artifact_to_user`. When the store holds at least 20
artifacts: if the scan finds an unlocked artifact of lowest level it is
deleted and the new artifact stored; otherwise the new artifact is not stored
and its disassembly yield is credited to the user's upgrade-item ledger. Below
capacity the new artifact is stored directly. -/
def add_new_artifact_to_user (u : UserEconomyState) (s : ArtifactStore)
    (artifact : Artifact) : UserEconomyState × ArtifactStore :=
  if is_artifact_storage_full s then
    match scan_lowest_unlocked s with
    | some lowest_level_artifact_id =>
        (u, add_new_artifact (delete_artifact s lowest_level_artifact_id).1 artifact)
    | none =>
        let reinforcement_items := get_reinforcement_items_from_disassembly artifact
        (add_artifact_upgrade_items u reinforcement_items, s)
  else
    (u, add_new_artifact s artifact)

/-- The artifact named by the scan result is in the store, is unlocked, and
its level is minimal among the unlocked artifacts. -/
def IsLowestUnlocked (s : ArtifactStore) (i : Nat) : Prop :=
  ∃ a, (i, a) ∈ s ∧ a.is_locked = false ∧
    ∀ p ∈ s, p.2.is_locked = false → a.level ≤ p.2.level

/-- Loop invariant of the eviction scan, relative to the processed prefix. -/
def ScanInv (processed : ArtifactStore) : Option (Nat × Nat) → Prop
  | none => ∀ p ∈ processed, p.2.is_locked = true
  | some (i, l) =>
      (∃ a, (i, a) ∈ processed ∧ a.is_locked = false ∧ a.level = l) ∧
      ∀ p ∈ processed, p.2.is_locked = false → l ≤ p.2.level

lemma scan_step_inv (processed : ArtifactStore) (acc : Option (Nat × Nat))
    (p : Nat × Artifact) (h : ScanInv processed acc) :
    ScanInv (processed ++ [p]) (scan_step acc p) := by
  rcases acc with _ | ⟨i, l⟩
  · by_cases hl : p.2.is_locked
    · have : scan_step none p = none := by
        simp [scan_step, hl]
      rw [this]
      intro q hq
      rcases List.mem_append.mp hq with hq | hq
      · exact h q hq
      · simp only [List.mem_singleton] at hq
        subst hq
        exact hl
    · have : scan_step none p = some (p.1, p.2.level) := by
        simp [scan_step, below_lowest, hl]
      rw [this]
      refine ⟨⟨p.2, by simp, by simp [hl], rfl⟩, ?_⟩
      intro q hq hq2
      rcases List.mem_append.mp hq with hq | hq
      · exact absurd (h q hq) (by simp [hq2])
      · simp only [List.mem_singleton] at hq
        subst hq
        exact le_refl _
  · obtain ⟨⟨a, ha, haun, halev⟩, hmin⟩ := h
    by_cases hnew : (!p.2.is_locked && below_lowest p.2.level (some (i, l))) = true
    · have : scan_step (some (i, l)) p = some (p.1, p.2.level) := by
        simp only [scan_step, hnew, if_true]
      rw [this]
      have hplt : p.2.level < l := by
        simpa [below_lowest] using (Bool.and_elim_right hnew)
      refine ⟨⟨p.2, by simp, ?_, rfl⟩, ?_⟩
      · have := Bool.and_elim_left hnew
        simpa using this
      · intro q hq hq2
        rcases List.mem_append.mp hq with hq | hq
        · exact le_trans (le_of_lt hplt) (hmin q hq hq2)
        · simp only [List.mem_singleton] at hq
          subst hq
          exact le_refl _
    · have : scan_step (some (i, l)) p = some (i, l) := by
        simp only [scan_step, hnew, if_false, Bool.false_eq_true]
      rw [this]
      refine ⟨⟨a, List.mem_append_left _ ha, haun, halev⟩, ?_⟩
      intro q hq hq2
      rcases List.mem_append.mp hq with hq | hq
      · exact hmin q hq hq2
      · simp only [List.mem_singleton] at hq
        subst hq
        simp only [Bool.and_eq_true, Bool.not_eq_true', below_lowest] at hnew
        have hnlt : ¬ (decide (q.2.level < l)) = true := by
          intro hdec
          exact hnew ⟨hq2, hdec⟩
        simp only [decide_eq_true_eq] at hnlt
        omega

lemma scan_fold_inv (rest : ArtifactStore) (processed : ArtifactStore)
    (acc : Option (Nat × Nat)) (h : ScanInv processed acc) :
    ScanInv (processed ++ rest) (rest.foldl scan_step acc) := by
  induction rest generalizing processed acc with
  | nil => simpa using h
  | cons p rest ih =>
      have h2 := scan_step_inv processed acc p h
      have := ih (processed ++ [p]) (scan_step acc p) h2
      simpa [List.append_assoc] using this

lemma scan_inv (s : ArtifactStore) : ScanInv s (s.foldl scan_step none) := by
  have := scan_fold_inv s [] none (by intro p hp; simp at hp)
  simpa using this

lemma scan_some_isLowest {s : ArtifactStore} {i : Nat}
    (h : scan_lowest_unlocked s = some i) : IsLowestUnlocked s i := by
  unfold scan_lowest_unlocked at h
  have hinv := scan_inv s
  rcases hfold : s.foldl scan_step none with _ | ⟨j, l⟩
  · rw [hfold] at h
    simp at h
  · rw [hfold] at h hinv
    obtain ⟨⟨a, ha, haun, halev⟩, hmin⟩ := hinv
    have hji : j = i := by
      simpa using h
    subst hji
    subst halev
    exact ⟨a, ha, haun, hmin⟩

lemma scan_none_all_locked {s : ArtifactStore}
    (h : scan_lowest_unlocked s = none) : ∀ p ∈ s, p.2.is_locked = true := by
  unfold scan_lowest_unlocked at h
  have hinv := scan_inv s
  rcases hfold : s.foldl scan_step none with _ | ⟨j, l⟩
  · rw [hfold] at hinv
    exact hinv
  · rw [hfold] at h
    simp at h

lemma scan_some_of_unlocked {s : ArtifactStore}
    (h : ∃ p ∈ s, p.2.is_locked = false) : ∃ i, scan_lowest_unlocked s = some i := by
  rcases hscan : scan_lowest_unlocked s with _ | i
  · obtain ⟨p, hp, hpun⟩ := h
    have := scan_none_all_locked hscan p hp
    rw [this] at hpun
    exact absurd hpun (by simp)
  · exact ⟨i, rfl⟩

lemma add_new_artifact_length (s : ArtifactStore) (a : Artifact) :
    (add_new_artifact s a).length ≤ s.length + 1 := by
  unfold add_new_artifact
  by_cases h : s.any (fun p => p.1 = a.artifact_id)
  · rw [if_pos h, List.length_map]
    omega
  · rw [if_neg h, List.length_append]
    simp

lemma add_new_artifact_fresh {s : ArtifactStore} {a : Artifact}
    (hfresh : a.artifact_id ∉ s.map Prod.fst) :
    add_new_artifact s a = s ++ [(a.artifact_id, a)] := by
  unfold add_new_artifact
  rw [if_neg]
  intro hany
  obtain ⟨p, hp, hpe⟩ := List.any_eq_true.mp hany
  exact hfresh (by
    simp only [decide_eq_true_eq] at hpe
    rw [← hpe]
    exact List.mem_map_of_mem Prod.fst hp)

lemma delete_artifact_of_mem {s : ArtifactStore} {i : Nat} {b : Artifact}
    (hb : (i, b) ∈ s) :
    (delete_artifact s i).1 = s.filter (fun p => p.1 ≠ i) := by
  unfold delete_artifact
  rw [if_pos]
  exact List.any_eq_true.mpr ⟨(i, b), hb, by simp⟩

lemma delete_artifact_length_lt {s : ArtifactStore} {i : Nat} {b : Artifact}
    (hb : (i, b) ∈ s) :
    ((delete_artifact s i).1).length < s.length := by
  rw [delete_artifact_of_mem hb]
  induction s with
  | nil => cases hb
  | cons p rest ih =>
      rcases List.mem_cons.mp hb with he | hmem
      · subst he
        simp only [List.filter_cons, decide_not, decide_eq_true_eq]
        rw [if_neg (by simp)]
        have := List.length_filter_le (fun p => !decide (p.1 = i)) rest
        simp only [List.length_cons]
        omega
      · by_cases hp : p.1 = i
        · simp only [List.filter_cons]
          rw [if_neg (by simp [hp])]
          have := List.length_filter_le (fun q => decide ¬(q.1 = i)) rest
          simp only [List.length_cons]
          have hlt := ih hmem
          omega
        · simp only [List.filter_cons]
          rw [if_pos (by simp [hp])]
          have hlt := ih hmem
          simp only [List.length_cons]
          omega

lemma delete_artifact_length_nodup {s : ArtifactStore} {i : Nat} {b : Artifact}
    (hnodup : (s.map Prod.fst).Nodup) (hb : (i, b) ∈ s) :
    ((delete_artifact s i).1).length + 1 = s.length := by
  rw [delete_artifact_of_mem hb]
  induction s with
  | nil => cases hb
  | cons p rest ih =>
      simp only [List.map_cons, List.nodup_cons] at hnodup
      obtain ⟨hniq, hrest⟩ := hnodup
      rcases List.mem_cons.mp hb with he | hmem
      · subst he
        simp only [List.filter_cons]
        rw [if_neg (by simp)]
        have hkeep : rest.filter (fun p => decide ¬(p.1 = i)) = rest := by
          apply List.filter_eq_self.mpr
          intro q hq
          simp only [decide_eq_true_eq]
          intro hqi
          refine hniq ?_
          have hkm : q.1 ∈ rest.map Prod.fst := List.mem_map_of_mem Prod.fst hq
          rw [hqi] at hkm
          exact hkm
        simp only [decide_not] at hkeep ⊢
        rw [hkeep]
        simp
      · have hpi : p.1 ≠ i := by
          intro hpe
          exact hniq (by
            rw [hpe]
            exact List.mem_map_of_mem Prod.fst hmem)
        simp only [List.filter_cons]
        rw [if_pos (by simp [hpi])]
        have := ih hrest hmem
        simp only [List.length_cons]
        omega

lemma delete_artifact_keys_subset (s : ArtifactStore) (i : Nat) :
    ((delete_artifact s i).1).map Prod.fst ⊆ s.map Prod.fst := by
  unfold delete_artifact
  by_cases h : s.any (fun p => p.1 = i)
  · rw [if_pos h]
    exact ((List.filter_sublist s).map Prod.fst).subset
  · rw [if_neg h]
    exact fun x hx => hx

lemma delete_artifact_mem_of_ne {s : ArtifactStore} {i j : Nat} {b c : Artifact}
    (hb : (j, b) ∈ s) (hc : (i, c) ∈ s) (hne : j ≠ i) :
    (j, b) ∈ (delete_artifact s i).1 := by
  rw [delete_artifact_of_mem hc]
  exact List.mem_filter.mpr ⟨hb, by simp [hne]⟩

lemma keys_nodup_mem_unique {s : ArtifactStore} {i : Nat} {b c : Artifact}
    (hnodup : (s.map Prod.fst).Nodup) (hb : (i, b) ∈ s) (hc : (i, c) ∈ s) :
    b = c := by
  induction s with
  | nil => cases hb
  | cons p rest ih =>
      simp only [List.map_cons, List.nodup_cons] at hnodup
      obtain ⟨hniq, hrest⟩ := hnodup
      rcases List.mem_cons.mp hb with he | hmemb <;>
        rcases List.mem_cons.mp hc with he2 | hmemc
      · rw [← he] at he2
        injection he2 with h1 h2
        exact h2.symm
      · subst he
        exact absurd (List.mem_map_of_mem Prod.fst hmemc) hniq
      · subst he2
        exact absurd (List.mem_map_of_mem Prod.fst hmemb) hniq
      · exact ih hrest hmemb hmemc

/-- C1: after any `add_new_artifact_to_user` call on a collection holding at
most 20 artifacts (below capacity, at capacity with an unlocked artifact, or
at capacity with all artifacts locked), the collection still holds at most 20
artifacts. -/
theorem add_new_artifact_to_user_capacity (u : UserEconomyState)
    (s : ArtifactStore) (a : Artifact) (h : s.length ≤ 20) :
    (add_new_artifact_to_user u s a).2.length ≤ 20 := by
  unfold add_new_artifact_to_user
  by_cases hfull : is_artifact_storage_full s
  · rw [if_pos hfull]
    rcases hscan : scan_lowest_unlocked s with _ | i
    · simpa using h
    · simp only
      obtain ⟨b, hb, _, _⟩ := scan_some_isLowest hscan
      have hdel := delete_artifact_length_lt hb
      have hadd := add_new_artifact_length ((delete_artifact s i).1) a
      omega
  · rw [if_neg hfull]
    have hlt : s.length < 20 := by
      unfold is_artifact_storage_full at hfull
      simpa using hfull
    have hadd := add_new_artifact_length s a
    simpa using le_trans hadd (by omega)

/-- C1 witness: adding to an empty collection keeps the size within 20. -/
theorem add_new_artifact_to_user_capacity_witness :
    (add_new_artifact_to_user ⟨0, 0, 0⟩ []
        { artifact_id := 1, name := "w" }).2.length ≤ 20 :=
  add_new_artifact_to_user_capacity ⟨0, 0, 0⟩ []
    { artifact_id := 1, name := "w" } (by decide)

/-- A small constructor for concrete artifacts used in concrete scenarios. -/
def demoArtifact (i : Nat) (level : Nat) (locked : Bool) : Artifact :=
  { artifact_id := i, name := "w", rarity := "⚪普通", level := level,
    is_locked := locked }

/-- A full collection: 20 unlocked common artifacts with ids 1..20 and levels
1..20 (id 1 has the unique lowest level 1). -/
def fullUnlockedStore : ArtifactStore :=
  (List.range 20).map (fun i => (i + 1, demoArtifact (i + 1) (i + 1) false))

/-- A full collection of 20 locked common artifacts, ids 1..20, levels 1..20. -/
def fullLockedStore : ArtifactStore :=
  (List.range 20).map (fun i => (i + 1, demoArtifact (i + 1) (i + 1) true))

/-- C2 counterexample: on a full collection of 20 unlocked artifacts the call
does evict the lowest-level artifact (id 1, whose yield-table value is 1) and
stores the new one, but the user's enhancement-item ledger is left completely
unchanged — the evicted artifact is deleted without any disassembly credit,
contradicting the claim that its resources are credited. -/
theorem eviction_without_credit_counterexample :
    (add_new_artifact_to_user ⟨0, 0, 0⟩ fullUnlockedStore
        (demoArtifact 777 1 false)).1 = (⟨0, 0, 0⟩ : UserEconomyState) ∧
    get_reinforcement_items_from_disassembly (demoArtifact 1 1 false) = 1 ∧
    get_artifact_by_id (add_new_artifact_to_user ⟨0, 0, 0⟩ fullUnlockedStore
        (demoArtifact 777 1 false)).2 1 = none ∧
    (add_new_artifact_to_user ⟨0, 0, 0⟩ fullUnlockedStore
        (demoArtifact 777 1 false)).2.length = 20 := by
  refine ⟨?_, by decide, ?_, ?_⟩ <;> decide

/-- C2 (amended): on a full collection (20 distinct-id items, at least one
unlocked) and a fresh new-artifact id, an artifact with the lowest level among
the unlocked ones is deleted — destroyed with no disassembly resources
credited, the user ledger is untouched — then the new artifact is appended,
and the collection size remains 20. -/
theorem eviction_replaces_lowest_unlocked (u : UserEconomyState)
    (s : ArtifactStore) (a : Artifact) (hlen : s.length = 20)
    (hnodup : (s.map Prod.fst).Nodup)
    (hfresh : a.artifact_id ∉ s.map Prod.fst)
    (hunlocked : ∃ p ∈ s, p.2.is_locked = false) :
    ∃ i, scan_lowest_unlocked s = some i ∧ IsLowestUnlocked s i ∧
      add_new_artifact_to_user u s a =
        (u, (delete_artifact s i).1 ++ [(a.artifact_id, a)]) ∧
      (add_new_artifact_to_user u s a).2.length = 20 := by
  obtain ⟨i, hscan⟩ := scan_some_of_unlocked hunlocked
  obtain ⟨b, hb, hbun, hbmin⟩ := scan_some_isLowest hscan
  have hfull : is_artifact_storage_full s = true := by
    unfold is_artifact_storage_full
    simp [hlen]
  have hfresh2 : a.artifact_id ∉ ((delete_artifact s i).1).map Prod.fst :=
    fun hmem => hfresh (delete_artifact_keys_subset s i hmem)
  have hres : add_new_artifact_to_user u s a =
      (u, (delete_artifact s i).1 ++ [(a.artifact_id, a)]) := by
    unfold add_new_artifact_to_user
    rw [if_pos hfull, hscan]
    show (u, add_new_artifact (delete_artifact s i).1 a) = _
    rw [add_new_artifact_fresh hfresh2]
  refine ⟨i, hscan, ⟨b, hb, hbun, hbmin⟩, hres, ?_⟩
  rw [hres]
  simp only [List.length_append, List.length_singleton]
  have := delete_artifact_length_nodup hnodup hb
  omega

/-- C2 (amended) witness: a concrete full unlocked collection realises the
amended eviction behaviour. -/
theorem eviction_replaces_lowest_unlocked_witness :
    ∃ i, scan_lowest_unlocked fullUnlockedStore = some i ∧
      IsLowestUnlocked fullUnlockedStore i ∧
      add_new_artifact_to_user ⟨0, 0, 0⟩ fullUnlockedStore
          (demoArtifact 777 1 false) =
        (⟨0, 0, 0⟩, (delete_artifact fullUnlockedStore i).1 ++
          [((demoArtifact 777 1 false).artifact_id, demoArtifact 777 1 false)]) ∧
      (add_new_artifact_to_user ⟨0, 0, 0⟩ fullUnlockedStore
          (demoArtifact 777 1 false)).2.length = 20 :=
  eviction_replaces_lowest_unlocked ⟨0, 0, 0⟩ fullUnlockedStore
    (demoArtifact 777 1 false) (by decide) (by decide) (by decide)
    ⟨(1, demoArtifact 1 1 false), by decide, by decide⟩

/-- C4: with a fresh new-artifact id and distinct stored ids, every locked
artifact present before `add_new_artifact_to_user` is still present unchanged
after the call; and when the collection is full with every artifact locked,
the new artifact is never stored — the call only credits its disassembly
yield to the user's enhancement-item ledger and leaves the collection exactly
as it was. -/
theorem locked_artifacts_never_destroyed (u : UserEconomyState)
    (s : ArtifactStore) (a : Artifact)
    (hnodup : (s.map Prod.fst).Nodup)
    (hfresh : a.artifact_id ∉ s.map Prod.fst) :
    (∀ i b, (i, b) ∈ s → b.is_locked = true →
      (i, b) ∈ (add_new_artifact_to_user u s a).2) ∧
    (is_artifact_storage_full s = true → (∀ p ∈ s, p.2.is_locked = true) →
      add_new_artifact_to_user u s a =
        (add_artifact_upgrade_items u
          (get_reinforcement_items_from_disassembly a), s)) := by
  constructor
  · intro i b hib hlock
    unfold add_new_artifact_to_user
    by_cases hfull : is_artifact_storage_full s
    · rw [if_pos hfull]
      rcases hscan : scan_lowest_unlocked s with _ | j
      · exact hib
      · simp only
        obtain ⟨c, hc, hcun, _⟩ := scan_some_isLowest hscan
        have hfresh2 : a.artifact_id ∉ ((delete_artifact s j).1).map Prod.fst :=
          fun hmem => hfresh (delete_artifact_keys_subset s j hmem)
        rw [add_new_artifact_fresh hfresh2]
        apply List.mem_append_left
        apply delete_artifact_mem_of_ne hib hc
        intro hij
        subst hij
        have := keys_nodup_mem_unique hnodup hib hc
        subst this
        rw [hlock] at hcun
        exact absurd hcun (by simp)
    · rw [if_neg hfull]
      have hfr : add_new_artifact s a = s ++ [(a.artifact_id, a)] :=
        add_new_artifact_fresh hfresh
      simp only [hfr]
      exact List.mem_append_left _ hib
  · intro hfull hall
    have hscan : scan_lowest_unlocked s = none := by
      rcases hs : scan_lowest_unlocked s with _ | j
      · rfl
      · obtain ⟨c, hc, hcun, _⟩ := scan_some_isLowest hs
        rw [hall (j, c) hc] at hcun
        exact absurd hcun (by simp)
    unfold add_new_artifact_to_user
    rw [if_pos hfull, hscan]

/-- C4 witness: on a concrete full all-locked collection the call leaves all
20 locked artifacts in place and only credits the new artifact's yield. -/
theorem locked_artifacts_never_destroyed_witness :
    ((∀ i b, (i, b) ∈ fullLockedStore → b.is_locked = true →
      (i, b) ∈ (add_new_artifact_to_user ⟨0, 0, 0⟩ fullLockedStore
        (demoArtifact 778 1 false)).2) ∧
    (is_artifact_storage_full fullLockedStore = true →
      (∀ p ∈ fullLockedStore, p.2.is_locked = true) →
      add_new_artifact_to_user ⟨0, 0, 0⟩ fullLockedStore
          (demoArtifact 778 1 false) =
        (add_artifact_upgrade_items ⟨0, 0, 0⟩
          (get_reinforcement_items_from_disassembly (demoArtifact 778 1 false)),
          fullLockedStore))) ∧
    (add_new_artifact_to_user ⟨0, 0, 0⟩ fullLockedStore
        (demoArtifact 778 1 false)).2 = fullLockedStore ∧
    (add_new_artifact_to_user ⟨0, 0, 0⟩ fullLockedStore
        (demoArtifact 778 1 false)).1.upgradeItems = 1 :=
  ⟨locked_artifacts_never_destroyed ⟨0, 0, 0⟩ fullLockedStore
      (demoArtifact 778 1 false) (by decide) (by decide),
    by decide, by decide⟩

/-- The randomness consumed by one `artifactCore.draw_artifact_lottery` call:
the outcome roll `random.randint(1, 100)`, the enhancement-item count
`random.randint(1, 3)`, the coin reward `random.randint(1, 120)`, and the
artifact that `generate_random_artifact` would produce in the jackpot bucket
(its internal name/description/rarity/id rolls are abstracted into the
resulting record; the id-resampling loop guarantees a fresh id). -/
structure LotteryRand where
  roll : Nat
  itemCount : Nat
  rewardCoins : Nat
  artifact : Artifact

/-- The outcome bucket reported by `draw_artifact_lottery`'s message. -/
inductive LotteryOutcome where
  | insufficientFunds
  | artifactWon
  | rerollItem
  | enhanceItems (n : Nat)
  | coinReward (n : Nat)
  deriving Repr, DecidableEq

/-- The fixed draw cost of `draw_artifact_lottery`: `draw_cost = 100`. -/
def draw_cost : Nat := 100

/-- `artifactCore.draw_artifact_lottery`. `user_coins` is the balance supplied
by the caller and checked against the cost; the debit and all credits go
through the ledger. Roll ≤ 5 produces an artifact via
`generate_random_artifact`, which ends in `add_new_artifact_to_user`; roll
6–15 credits one reroll item; roll 16–35 credits 1–3 enhancement items;
roll 36–100 credits a 1–120 coin reward. -/
def draw_artifact_lottery (u : UserEconomyState) (s : ArtifactStore)
    (user_coins : ℤ) (r : LotteryRand) :
    UserEconomyState × ArtifactStore × Bool × LotteryOutcome :=
  if user_coins < (draw_cost : ℤ) then
    (u, s, false, .insufficientFunds)
  else
    let u1 := update_user_coins u (-(draw_cost : ℤ))
    if r.roll ≤ 5 then
      let p := add_new_artifact_to_user u1 s r.artifact
      (p.1, p.2, true, .artifactWon)
    else if r.roll ≤ 15 then
      (add_artifact_re_roll_items u1 1, s, true, .rerollItem)
    else if r.roll ≤ 35 then
      (add_artifact_upgrade_items u1 r.itemCount, s, true,
        .enhanceItems r.itemCount)
    else
      (update_user_coins u1 r.rewardCoins, s, true, .coinReward r.rewardCoins)

lemma add_new_artifact_to_user_coins (u : UserEconomyState) (s : ArtifactStore)
    (a : Artifact) : (add_new_artifact_to_user u s a).1.coins = u.coins := by
  unfold add_new_artifact_to_user
  by_cases hfull : is_artifact_storage_full s
  · rw [if_pos hfull]
    rcases scan_lowest_unlocked s with _ | i <;> rfl
  · rw [if_neg hfull]

/-- C5: with balance at least 100 the outcome is decided by the single roll:
1–5 feeds the generated artifact into `add_new_artifact_to_user`, 6–15 credits
exactly 1 reroll item, 16–35 credits the 1–3 enhancement-item roll, and 36–100
credits the 1–120 coin roll; a user with exactly 150 coins whose roll lands in
36–100 ends with balance `50 + reward` with the reward in [1, 120]. -/
theorem draw_lottery_buckets (u : UserEconomyState) (s : ArtifactStore)
    (r : LotteryRand) (hcoins : (100 : ℤ) ≤ u.coins)
    (hroll : 1 ≤ r.roll ∧ r.roll ≤ 100)
    (hitem : 1 ≤ r.itemCount ∧ r.itemCount ≤ 3)
    (hreward : 1 ≤ r.rewardCoins ∧ r.rewardCoins ≤ 120) :
    (r.roll ≤ 5 →
      draw_artifact_lottery u s u.coins r =
        (let p := add_new_artifact_to_user (update_user_coins u (-100)) s r.artifact
         (p.1, p.2, true, .artifactWon))) ∧
    (6 ≤ r.roll → r.roll ≤ 15 →
      draw_artifact_lottery u s u.coins r =
        (add_artifact_re_roll_items (update_user_coins u (-100)) 1, s, true,
          .rerollItem)) ∧
    (16 ≤ r.roll → r.roll ≤ 35 →
      draw_artifact_lottery u s u.coins r =
        (add_artifact_upgrade_items (update_user_coins u (-100)) r.itemCount,
          s, true, .enhanceItems r.itemCount) ∧
      1 ≤ r.itemCount ∧ r.itemCount ≤ 3) ∧
    (36 ≤ r.roll →
      draw_artifact_lottery u s u.coins r =
        (update_user_coins (update_user_coins u (-100)) r.rewardCoins, s, true,
          .coinReward r.rewardCoins) ∧
      (draw_artifact_lottery u s u.coins r).1.coins =
        u.coins - 100 + r.rewardCoins ∧
      1 ≤ r.rewardCoins ∧ r.rewardCoins ≤ 120) ∧
    (u.coins = 150 → 36 ≤ r.roll →
      (draw_artifact_lottery u s u.coins r).1.coins = 50 + r.rewardCoins ∧
      1 ≤ r.rewardCoins ∧ r.rewardCoins ≤ 120) := by
  have hnotlt : ¬ u.coins < (100 : ℤ) := by omega
  have hcost : draw_artifact_lottery u s u.coins r =
      (if u.coins < (100 : ℤ) then (u, s, false, .insufficientFunds)
       else
        let u1 := update_user_coins u (-(100 : ℤ))
        if r.roll ≤ 5 then
          let p := add_new_artifact_to_user u1 s r.artifact
          (p.1, p.2, true, .artifactWon)
        else if r.roll ≤ 15 then
          (add_artifact_re_roll_items u1 1, s, true, .rerollItem)
        else if r.roll ≤ 35 then
          (add_artifact_upgrade_items u1 r.itemCount, s, true,
            .enhanceItems r.itemCount)
        else
          (update_user_coins u1 r.rewardCoins, s, true,
            .coinReward r.rewardCoins)) := by
    unfold draw_artifact_lottery draw_cost
    norm_num
  refine ⟨?_, ?_, ?_, ?_, ?_⟩
  · intro h5
    rw [hcost, if_neg hnotlt, if_pos h5]
  · intro h6 h15
    rw [hcost, if_neg hnotlt, if_neg (by omega), if_pos h15]
  · intro h16 h35
    refine ⟨?_, hitem⟩
    rw [hcost, if_neg hnotlt, if_neg (by omega), if_neg (by omega), if_pos h35]
  · intro h36
    have heq : draw_artifact_lottery u s u.coins r =
        (update_user_coins (update_user_coins u (-100)) r.rewardCoins, s, true,
          .coinReward r.rewardCoins) := by
      rw [hcost, if_neg hnotlt, if_neg (by omega), if_neg (by omega),
        if_neg (by omega)]
    refine ⟨heq, ?_, hreward⟩
    rw [heq]
    unfold update_user_coins
    simp only
    omega
  · intro h150 h36
    have heq : draw_artifact_lottery u s u.coins r =
        (update_user_coins (update_user_coins u (-100)) r.rewardCoins, s, true,
          .coinReward r.rewardCoins) := by
      rw [hcost, if_neg hnotlt, if_neg (by omega), if_neg (by omega),
        if_neg (by omega)]
    refine ⟨?_, hreward⟩
    rw [heq]
    unfold update_user_coins
    simp only
    omega

/-- C5 witness: a user with 150 coins rolling 50 (coin bucket) with reward 77
ends at balance 127 = 50 + 77. -/
theorem draw_lottery_buckets_witness :
    ((50 : Nat) ≤ 5 →
      draw_artifact_lottery ⟨150, 0, 0⟩ [] (150 : ℤ)
          ⟨50, 2, 77, demoArtifact 1 1 false⟩ =
        (let p := add_new_artifact_to_user (update_user_coins ⟨150, 0, 0⟩ (-100)) []
            (demoArtifact 1 1 false)
         (p.1, p.2, true, .artifactWon))) ∧
    ((6 : Nat) ≤ 50 → (50 : Nat) ≤ 15 →
      draw_artifact_lottery ⟨150, 0, 0⟩ [] (150 : ℤ)
          ⟨50, 2, 77, demoArtifact 1 1 false⟩ =
        (add_artifact_re_roll_items (update_user_coins ⟨150, 0, 0⟩ (-100)) 1,
          [], true, .rerollItem)) ∧
    ((16 : Nat) ≤ 50 → (50 : Nat) ≤ 35 →
      draw_artifact_lottery ⟨150, 0, 0⟩ [] (150 : ℤ)
          ⟨50, 2, 77, demoArtifact 1 1 false⟩ =
        (add_artifact_upgrade_items (update_user_coins ⟨150, 0, 0⟩ (-100)) 2,
          [], true, .enhanceItems 2) ∧
      (1 : Nat) ≤ 2 ∧ (2 : Nat) ≤ 3) ∧
    ((36 : Nat) ≤ 50 →
      draw_artifact_lottery ⟨150, 0, 0⟩ [] (150 : ℤ)
          ⟨50, 2, 77, demoArtifact 1 1 false⟩ =
        (update_user_coins (update_user_coins ⟨150, 0, 0⟩ (-100)) 77, [], true,
          .coinReward 77) ∧
      (draw_artifact_lottery ⟨150, 0, 0⟩ [] (150 : ℤ)
          ⟨50, 2, 77, demoArtifact 1 1 false⟩).1.coins = 150 - 100 + 77 ∧
      (1 : Nat) ≤ 77 ∧ (77 : Nat) ≤ 120) ∧
    ((150 : ℤ) = 150 → (36 : Nat) ≤ 50 →
      (draw_artifact_lottery ⟨150, 0, 0⟩ [] (150 : ℤ)
          ⟨50, 2, 77, demoArtifact 1 1 false⟩).1.coins = 50 + 77 ∧
      (1 : Nat) ≤ 77 ∧ (77 : Nat) ≤ 120) :=
  draw_lottery_buckets ⟨150, 0, 0⟩ [] ⟨50, 2, 77, demoArtifact 1 1 false⟩
    (by decide) (by decide) (by decide) (by decide)

/-- C6: a draw with balance below the 100-coin cost fails with the
insufficient-funds outcome and changes nothing; with balance at least 100 the
final balance in every bucket is the prior balance minus exactly the 100-coin
debit plus the coin reward when (and only when) the roll lands in 36–100 —
the consolation buckets keep the full debit. -/
theorem draw_lottery_cost (u : UserEconomyState) (s : ArtifactStore)
    (r : LotteryRand) :
    (u.coins < 100 →
      draw_artifact_lottery u s u.coins r = (u, s, false, .insufficientFunds)) ∧
    ((100 : ℤ) ≤ u.coins →
      (draw_artifact_lottery u s u.coins r).1.coins =
        u.coins - 100 + (if 36 ≤ r.roll then (r.rewardCoins : ℤ) else 0) ∧
      (draw_artifact_lottery u s u.coins r).2.2.2 ≠ .insufficientFunds) := by
  have hcost : draw_artifact_lottery u s u.coins r =
      (if u.coins < (100 : ℤ) then (u, s, false, .insufficientFunds)
       else
        let u1 := update_user_coins u (-(100 : ℤ))
        if r.roll ≤ 5 then
          let p := add_new_artifact_to_user u1 s r.artifact
          (p.1, p.2, true, .artifactWon)
        else if r.roll ≤ 15 then
          (add_artifact_re_roll_items u1 1, s, true, .rerollItem)
        else if r.roll ≤ 35 then
          (add_artifact_upgrade_items u1 r.itemCount, s, true,
            .enhanceItems r.itemCount)
        else
          (update_user_coins u1 r.rewardCoins, s, true,
            .coinReward r.rewardCoins)) := by
    unfold draw_artifact_lottery draw_cost
    norm_num
  constructor
  · intro hlt
    rw [hcost, if_pos hlt]
  · intro hge
    have hnotlt : ¬ u.coins < (100 : ℤ) := by omega
    rw [hcost, if_neg hnotlt]
    by_cases h5 : r.roll ≤ 5
    · rw [if_pos h5]
      constructor
      · simp only
        rw [add_new_artifact_to_user_coins]
        unfold update_user_coins
        simp only
        rw [if_neg (by omega)]
        omega
      · simp
    · rw [if_neg h5]
      by_cases h15 : r.roll ≤ 15
      · rw [if_pos h15]
        refine ⟨?_, by simp⟩
        unfold add_artifact_re_roll_items update_user_coins
        simp only
        rw [if_neg (by omega)]
        omega
      · rw [if_neg h15]
        by_cases h35 : r.roll ≤ 35
        · rw [if_pos h35]
          refine ⟨?_, by simp⟩
          unfold add_artifact_upgrade_items update_user_coins
          simp only
          rw [if_neg (by omega)]
          omega
        · rw [if_neg h35]
          refine ⟨?_, by simp⟩
          unfold update_user_coins
          simp only
          rw [if_pos (by omega)]
          omega

/-- C6 witness: a user with 40 coins cannot draw and nothing changes; a user
with 100 coins rolling into the reroll bucket ends with exactly 0 coins. -/
theorem draw_lottery_cost_witness :
    (((40 : ℤ) < 100 →
      draw_artifact_lottery ⟨40, 0, 0⟩ [] (40 : ℤ)
          ⟨10, 1, 1, demoArtifact 1 1 false⟩ =
        (⟨40, 0, 0⟩, [], false, .insufficientFunds)) ∧
    ((100 : ℤ) ≤ (40 : ℤ) →
      (draw_artifact_lottery ⟨40, 0, 0⟩ [] (40 : ℤ)
          ⟨10, 1, 1, demoArtifact 1 1 false⟩).1.coins =
        40 - 100 + (if 36 ≤ (10 : Nat) then ((1 : Nat) : ℤ) else 0) ∧
      (draw_artifact_lottery ⟨40, 0, 0⟩ [] (40 : ℤ)
          ⟨10, 1, 1, demoArtifact 1 1 false⟩).2.2.2 ≠ .insufficientFunds)) ∧
    (draw_artifact_lottery ⟨100, 0, 0⟩ [] (100 : ℤ)
        ⟨10, 1, 1, demoArtifact 1 1 false⟩).1.coins = 0 :=
  ⟨draw_lottery_cost ⟨40, 0, 0⟩ [] ⟨10, 1, 1, demoArtifact 1 1 false⟩,
    by decide⟩

/-- Result classification of `artifactCore.enhance_artifact`. -/
inductive EnhanceResult where
  | notFound
  | insufficientItems
  | insufficientFunds
  | success
  deriving Repr, DecidableEq

/-- `artifactCore.enhance_artifact`. `reinforcement_items` is the item count
supplied by the caller; it is what the sufficiency check compares against,
while the actual item debit goes to the ledger. The coin check reads the
user's live balance. Costs are `2 * level` items and `100 * level` coins,
computed from the current level before the increment. -/
def enhance_artifact (u : UserEconomyState) (s : ArtifactStore)
    (artifact_id : Nat) (reinforcement_items : ℤ) :
    UserEconomyState × ArtifactStore × EnhanceResult :=
  match get_artifact_by_id s artifact_id with
  | none => (u, s, .notFound)
  | some artifact =>
      let required_items : ℤ := 2 * artifact.level
      let required_coins : ℤ := 100 * artifact.level
      if reinforcement_items < required_items then
        (u, s, .insufficientItems)
      else if u.coins < required_coins then
        (u, s, .insufficientFunds)
      else
        let artifact2 := { artifact with level := artifact.level + 1 }
        let u2 := update_user_coins
          (add_artifact_upgrade_items u (-required_items)) (-required_coins)
        (u2, (update_artifact s artifact2).1, .success)

/-- C7: enhancing requires exactly `2·L` items (checked against the
caller-supplied count) and `100·L` coins, both from the current level; on
success the level becomes `L + 1`, the item ledger drops by exactly `2·L` and
the balance by exactly `100·L`; on any failure (absent artifact, insufficient
items, insufficient coins) nothing changes. -/
theorem enhance_artifact_spec (u : UserEconomyState) (s : ArtifactStore)
    (artifact_id : Nat) (items : ℤ) :
    (get_artifact_by_id s artifact_id = none →
      enhance_artifact u s artifact_id items = (u, s, .notFound)) ∧
    (∀ art, get_artifact_by_id s artifact_id = some art →
      (items < 2 * art.level →
        enhance_artifact u s artifact_id items = (u, s, .insufficientItems)) ∧
      (2 * (art.level : ℤ) ≤ items → u.coins < 100 * art.level →
        enhance_artifact u s artifact_id items = (u, s, .insufficientFunds)) ∧
      (2 * (art.level : ℤ) ≤ items → 100 * (art.level : ℤ) ≤ u.coins →
        enhance_artifact u s artifact_id items =
          ({ coins := u.coins - 100 * art.level,
             upgradeItems := u.upgradeItems - 2 * art.level,
             rerollItems := u.rerollItems },
            (update_artifact s { art with level := art.level + 1 }).1,
            .success))) := by
  constructor
  · intro hnone
    unfold enhance_artifact
    rw [hnone]
  · intro art hart
    refine ⟨?_, ?_, ?_⟩
    · intro hlt
      unfold enhance_artifact
      rw [hart]
      simp only
      rw [if_pos hlt]
    · intro hitems hcoins
      unfold enhance_artifact
      rw [hart]
      simp only
      rw [if_neg (by omega), if_pos hcoins]
    · intro hitems hcoins
      unfold enhance_artifact
      rw [hart]
      simp only
      rw [if_neg (by omega), if_neg (by omega)]
      unfold update_user_coins add_artifact_upgrade_items
      have h1 : u.coins + -(100 * (art.level : ℤ)) = u.coins - 100 * art.level := by
        ring
      have h2 : u.upgradeItems + -(2 * (art.level : ℤ)) =
          u.upgradeItems - 2 * art.level := by
        ring
      simp only
      rw [h1, h2]

/-- C7 witness: a level-3 artifact with the caller holding 6 items and the
user 300 coins succeeds, leaving level 4, item ledger lowered by 6 and coins
by 300; failure cases at the same store change nothing. -/
theorem enhance_artifact_spec_witness :
    ((get_artifact_by_id [(5, demoArtifact 5 3 false)] 5 = none →
      enhance_artifact ⟨300, 10, 0⟩ [(5, demoArtifact 5 3 false)] 5 6 =
        (⟨300, 10, 0⟩, [(5, demoArtifact 5 3 false)], .notFound)) ∧
    (∀ art, get_artifact_by_id [(5, demoArtifact 5 3 false)] 5 = some art →
      ((6 : ℤ) < 2 * art.level →
        enhance_artifact ⟨300, 10, 0⟩ [(5, demoArtifact 5 3 false)] 5 6 =
          (⟨300, 10, 0⟩, [(5, demoArtifact 5 3 false)], .insufficientItems)) ∧
      (2 * (art.level : ℤ) ≤ 6 → (300 : ℤ) < 100 * art.level →
        enhance_artifact ⟨300, 10, 0⟩ [(5, demoArtifact 5 3 false)] 5 6 =
          (⟨300, 10, 0⟩, [(5, demoArtifact 5 3 false)], .insufficientFunds)) ∧
      (2 * (art.level : ℤ) ≤ 6 → 100 * (art.level : ℤ) ≤ 300 →
        enhance_artifact ⟨300, 10, 0⟩ [(5, demoArtifact 5 3 false)] 5 6 =
          ({ coins := (300 : ℤ) - 100 * art.level,
             upgradeItems := (10 : ℤ) - 2 * art.level,
             rerollItems := 0 },
            (update_artifact [(5, demoArtifact 5 3 false)]
              { art with level := art.level + 1 }).1,
            .success)))) ∧
    enhance_artifact ⟨300, 10, 0⟩ [(5, demoArtifact 5 3 false)] 5 6 =
      (⟨0, 4, 0⟩, [(5, demoArtifact 5 4 false)], .success) ∧
    enhance_artifact ⟨299, 10, 0⟩ [(5, demoArtifact 5 3 false)] 5 6 =
      (⟨299, 10, 0⟩, [(5, demoArtifact 5 3 false)], .insufficientFunds) ∧
    enhance_artifact ⟨300, 10, 0⟩ [(5, demoArtifact 5 3 false)] 5 5 =
      (⟨300, 10, 0⟩, [(5, demoArtifact 5 3 false)], .insufficientItems) :=
  ⟨enhance_artifact_spec ⟨300, 10, 0⟩ [(5, demoArtifact 5 3 false)] 5 6,
    by decide, by decide, by decide⟩

/-- Python's built-in `round` on a non-negative value: round half to even
(banker's rounding). Python floats are modelled over `ℚ`; every quantity this
development rounds is a product of small market values, far from the scale at
which double rounding error could move the result across a half-integer. -/
def pyRound (q : ℚ) : ℤ :=
  if Int.fract q < 1 / 2 then ⌊q⌋
  else if 1 / 2 < Int.fract q then ⌊q⌋ + 1
  else if ⌊q⌋ % 2 = 0 then ⌊q⌋ else ⌊q⌋ + 1

/-- `total_price = int(round(price * quantity))` in both
`BuyStockCommand.execute` and `SellStockCommand.execute` (src/plugin.py). -/
def total_price_of (price : ℚ) (quantity : Nat) : ℤ :=
  pyRound (price * quantity)

/-- `fee = math.ceil(total_price * 0.05); if fee < 1: fee = 1` in both trade
commands: 5 percent of the total, rounded up, at least 1 coin. The double
`0.05` exceeds 1/20 by 2^-58.32..; for totals below 10^15 the float ceiling
equals the exact `⌈total/20⌉`, so the fee is embedded exactly. -/
def fee_of (total_price : ℤ) : ℤ :=
  max 1 ⌈(total_price : ℚ) / 20⌉

/-- `required = max(1, int(round(10 * (1 + abs(cur_weight)))))` — the shares
needed per 0.01 of weight movement; grows with the current weight's
magnitude. -/
def required_per_unit (w : ℚ) : Nat :=
  max 1 (pyRound (10 * (1 + |w|))).toNat

/-- The weight update of `BuyStockCommand.execute`: buying pushes the weight
down by 0.01 per whole unit of `required_per_unit` shares; partial units do
not count. No clamp is applied to the new value. -/
def weight_after_buy (w : ℚ) (quantity : Nat) : ℚ :=
  let units := quantity / required_per_unit w
  if 0 < units then w - 1 / 100 * units else w

/-- The weight update of `SellStockCommand.execute`: selling pushes the weight
up symmetrically. No clamp is applied to the new value. -/
def weight_after_sell (w : ℚ) (quantity : Nat) : ℚ :=
  let units := quantity / required_per_unit w
  if 0 < units then w + 1 / 100 * units else w

/-- The per-user, per-symbol state a trade touches: the `gold` balance from
`boom_data.json` (kept non-negative by `max(0, ...)` at every write), the
holding for the traded symbol (0 means no record — a zero holding is deleted
on sell), and the symbol's `weight` from `stock_data.json`. -/
structure TradeState where
  gold : ℤ
  holding : Nat
  weight : ℚ
  deriving Repr, DecidableEq

/-- `BuyStockCommand.execute` (src/plugin.py): rejects a non-positive
quantity; computes the rounded total price and the fee; fails when the gold
balance cannot cover price plus fee; otherwise debits `total + fee` (the
ledger write clamps at 0), adds the shares to the holding, and applies the
buy-side weight update. `none` models the command failing with a message and
no state change. -/
def buy_stock (st : TradeState) (price : ℚ) (quantity : Nat) :
    Option TradeState :=
  if quantity = 0 then none
  else
    let total_price := total_price_of price quantity
    let fee := fee_of total_price
    if st.gold < total_price + fee then none
    else
      some { gold := max 0 (st.gold - (total_price + fee)),
             holding := st.holding + quantity,
             weight := weight_after_buy st.weight quantity }

/-- `SellStockCommand.execute` (src/plugin.py): rejects a non-positive
quantity, a missing holding record, and a holding smaller than the requested
quantity; computes the same total and fee as the buy; refuses the sale when
the fee reaches the total; otherwise credits `total - fee` (clamped at 0),
removes the shares, and applies the sell-side weight update. -/
def sell_stock (st : TradeState) (price : ℚ) (quantity : Nat) :
    Option TradeState :=
  if quantity = 0 then none
  else if st.holding = 0 then none
  else if st.holding < quantity then none
  else
    let total_price := total_price_of price quantity
    let fee := fee_of total_price
    if total_price ≤ fee then none
    else
      some { gold := max 0 (st.gold + (total_price - fee)),
             holding := st.holding - quantity,
             weight := weight_after_sell st.weight quantity }

/-- C3 exhibit: starting from weight 0 (within every clamp bound), selling 300
shares at price 10 from a holding of 300 succeeds and drives the weight to
0.30, strictly above the documented +0.2 clamp bound — the code comments
promise the clamp but the code never applies one. -/
theorem weight_escapes_clamp_bound :
    sell_stock { gold := 0, holding := 300, weight := 0 } 10 300 =
      some { gold := 2850, holding := 0, weight := 3 / 10 } ∧
    ¬ ((3 : ℚ) / 10 ≤ 1 / 5) ∧
    weight_after_sell 0 300 = 3 / 10 := by
  have hpy0 : pyRound (10 * (1 + |(0 : ℚ)|)) = 10 := by
    rw [pyRound, show (10 : ℚ) * (1 + |(0 : ℚ)|) = 10 by norm_num]
    rw [show Int.fract (10 : ℚ) = 0 by rw [Int.fract]; norm_num]
    norm_num
  have hreq : required_per_unit 0 = 10 := by
    rw [required_per_unit, hpy0]
    rfl
  have hw : weight_after_sell 0 300 = 3 / 10 := by
    rw [weight_after_sell, hreq]
    norm_num
  have htp : total_price_of 10 300 = 3000 := by
    rw [total_price_of, pyRound,
      show (10 : ℚ) * ((300 : ℕ) : ℚ) = 3000 by norm_num]
    rw [show Int.fract (3000 : ℚ) = 0 by rw [Int.fract]; norm_num]
    norm_num
  have hfee : fee_of 3000 = 150 := by
    rw [fee_of]
    norm_num
  refine ⟨?_, by norm_num, hw⟩
  rw [sell_stock]
  simp only [htp, hfee, hw]
  norm_num

/-- C9: a successful buy followed immediately by a successful sell of the same
quantity at an unchanged price strictly decreases the gold balance, and the
loss is exactly two fees of `max(1, ⌈round(price·quantity)/20⌉)`. -/
theorem buy_sell_round_trip (st st1 st2 : TradeState) (price : ℚ)
    (quantity : Nat)
    (hbuy : buy_stock st price quantity = some st1)
    (hsell : sell_stock st1 price quantity = some st2) :
    st2.gold < st.gold ∧
    st.gold - st2.gold = 2 * fee_of (total_price_of price quantity) := by
  unfold buy_stock at hbuy
  by_cases hq : quantity = 0
  · rw [if_pos hq] at hbuy
    cases hbuy
  · rw [if_neg hq] at hbuy
    simp only at hbuy
    set tp := total_price_of price quantity with htp
    set fee := fee_of tp with hfee
    by_cases hgold : st.gold < tp + fee
    · rw [if_pos hgold] at hbuy
      cases hbuy
    · rw [if_neg hgold] at hbuy
      have hst1 : st1 = { gold := max 0 (st.gold - (tp + fee)),
                          holding := st.holding + quantity,
                          weight := weight_after_buy st.weight quantity } :=
        (Option.some.injEq _ _ ▸ hbuy).symm
      unfold sell_stock at hsell
      rw [if_neg hq] at hsell
      have hhold : st1.holding = st.holding + quantity := by
        rw [hst1]
      by_cases hz : st1.holding = 0
      · rw [if_pos hz] at hsell
        cases hsell
      · rw [if_neg hz] at hsell
        by_cases hlt : st1.holding < quantity
        · rw [if_pos hlt] at hsell
          cases hsell
        · rw [if_neg hlt] at hsell
          simp only at hsell
          rw [← htp, ← hfee] at hsell
          by_cases hfe : tp ≤ fee
          · rw [if_pos hfe] at hsell
            cases hsell
          · rw [if_neg hfe] at hsell
            have hst2 : st2 = { gold := max 0 (st1.gold + (tp - fee)),
                                holding := st1.holding - quantity,
                                weight := weight_after_sell st1.weight quantity } :=
              (Option.some.injEq _ _ ▸ hsell).symm
            have hfee1 : 1 ≤ fee := by
              rw [hfee]
              unfold fee_of
              exact le_max_left _ _
            have hg1 : st1.gold = st.gold - (tp + fee) := by
              rw [hst1]
              simp only
              omega
            have hg2 : st2.gold = max 0 (st1.gold + (tp - fee)) := by
              rw [hst2]
            rw [hg1] at hg2
            constructor <;> omega

/-- C9 witness: buying then selling 10 shares at price 10 with 200 gold loses
exactly 10 = 2 × 5 gold (total 100, fee 5 each way). -/
theorem buy_sell_round_trip_witness :
    buy_stock { gold := 200, holding := 0, weight := 0 } 10 10 =
      some { gold := 95, holding := 10, weight := -(1 / 100) } ∧
    sell_stock { gold := 95, holding := 10, weight := -(1 / 100) } 10 10 =
      some { gold := 190, holding := 0, weight := 0 } ∧
    ({ gold := 190, holding := 0, weight := 0 } : TradeState).gold <
      ({ gold := 200, holding := 0, weight := 0 } : TradeState).gold ∧
    ({ gold := 200, holding := 0, weight := 0 } : TradeState).gold -
        ({ gold := 190, holding := 0, weight := 0 } : TradeState).gold =
      2 * fee_of (total_price_of 10 10) := by
  have htp : total_price_of 10 10 = 100 := by
    rw [total_price_of, pyRound,
      show (10 : ℚ) * ((10 : ℕ) : ℚ) = 100 by norm_num]
    rw [show Int.fract (100 : ℚ) = 0 by rw [Int.fract]; norm_num]
    norm_num
  have hfee : fee_of 100 = 5 := by
    rw [fee_of]
    norm_num
  have hpy0 : pyRound (10 * (1 + |(0 : ℚ)|)) = 10 := by
    rw [pyRound, show (10 : ℚ) * (1 + |(0 : ℚ)|) = 10 by norm_num]
    rw [show Int.fract (10 : ℚ) = 0 by rw [Int.fract]; norm_num]
    norm_num
  have hreq0 : required_per_unit 0 = 10 := by
    rw [required_per_unit, hpy0]
    rfl
  have hwb : weight_after_buy 0 10 = -(1 / 100) := by
    rw [weight_after_buy, hreq0]
    norm_num
  have hpy1 : pyRound (10 * (1 + |(-(1 / 100) : ℚ)|)) = 10 := by
    rw [pyRound, show (10 : ℚ) * (1 + |(-(1 / 100) : ℚ)|) = 101 / 10 by
      rw [abs_of_nonpos (by norm_num : (-(1 / 100) : ℚ) ≤ 0)]
      norm_num]
    rw [show Int.fract ((101 : ℚ) / 10) = 1 / 10 by rw [Int.fract]; norm_num]
    norm_num
  have hreq1 : required_per_unit (-(1 / 100)) = 10 := by
    rw [required_per_unit, hpy1]
    rfl
  have hws : weight_after_sell (-(1 / 100)) 10 = 0 := by
    rw [weight_after_sell, hreq1]
    norm_num
  have hb : buy_stock { gold := 200, holding := 0, weight := 0 } 10 10 =
      some { gold := 95, holding := 10, weight := -(1 / 100) } := by
    rw [buy_stock]
    simp only [htp, hfee, hwb]
    norm_num
  have hs : sell_stock { gold := 95, holding := 10, weight := -(1 / 100) } 10 10 =
      some { gold := 190, holding := 0, weight := 0 } := by
    rw [sell_stock]
    simp only [htp, hfee, hws]
    norm_num
  exact ⟨hb, hs,
    (buy_sell_round_trip _ _ _ 10 10 hb hs).1,
    (buy_sell_round_trip _ _ _ 10 10 hb hs).2⟩

end MaillStreet
